import Mathlib

/-!
Verification of the chess engine in `src/server/chat-plugins/chess.ts`
(the revision with en-passant and promotion support; its line numbers are
the ones cited below).

The TypeScript code is embedded shallowly:

* JavaScript numbers that can become `NaN` (rows parsed from a position
  string, and every arithmetic expression built from them) are modelled as
  `JSNum := Option Int`, where `none` plays the role of `NaN`; arithmetic
  propagates `none` and every comparison with `none` is `false`, exactly as
  `NaN` behaves in JavaScript.
* The two `bigint` bit fields `whitePieces`/`blackPieces` are `Nat`, with
  JavaScript's `BigInt` shifts (a negative shift amount shifts the other
  way) modelled by `jsShiftLeftNat`/`jsShiftRightNat` and `x & ~mask`
  modelled by `natClearBits`.
* The mutually recursive pair `isKingInCheck` ↔ `getKingMoves` (via
  `getLegalMoves`) is embedded with a fuel parameter: `isKingInCheckF` is
  structurally recursive on the fuel and hands the one-step-smaller checker
  to the otherwise non-recursive bodies `getLegalMovesGen`/`getKingMovesGen`.
  A result `none` means the JavaScript call has not finished within the
  given recursion budget; `∀ fuel, … = none` models divergence
  (a stack overflow at run time).
-/

set_option maxRecDepth 10000

/-- JavaScript number that may be `NaN` (`none`). -/
abbrev JSNum := Option Int

/-- JavaScript `+` on possibly-`NaN` numbers. -/
def jsAdd : JSNum → JSNum → JSNum
  | some a, some b => some (a + b)
  | _, _ => none

/-- JavaScript `-` on possibly-`NaN` numbers. -/
def jsSub : JSNum → JSNum → JSNum
  | some a, some b => some (a - b)
  | _, _ => none

/-- JavaScript `*` on possibly-`NaN` numbers. -/
def jsMul : JSNum → JSNum → JSNum
  | some a, some b => some (a * b)
  | _, _ => none

/-- JavaScript `Math.abs`; `Math.abs(NaN)` is `NaN`. -/
def jsAbs : JSNum → JSNum
  | some a => some (if a < 0 then -a else a)
  | none => none

/-- JavaScript `===` between two numbers; any comparison with `NaN` is false. -/
def jsEqNum : JSNum → JSNum → Bool
  | some a, some b => a == b
  | _, _ => false

/-- JavaScript `<` against an integer literal; false when the left side is `NaN`. -/
def jsLtInt : JSNum → Int → Bool
  | some a, b => a < b
  | none, _ => false

/-- JavaScript `>=` against an integer literal; false when the left side is `NaN`. -/
def jsGeInt : JSNum → Int → Bool
  | some a, b => b ≤ a
  | none, _ => false

/-- JavaScript `>` against an integer literal; false when the left side is `NaN`. -/
def jsGtInt : JSNum → Int → Bool
  | some a, b => b < a
  | none, _ => false

/-- Piece/side colour (`type Color = 'white' | 'black'`). -/
inductive Color
  | white
  | black
deriving DecidableEq, Repr

/-- The opposite colour (`color === 'white' ? 'black' : 'white'`). -/
def Color.opposite : Color → Color
  | .white => .black
  | .black => .white

/-- The colour as the string the source stores in `ChessGame.turn`. -/
def Color.str : Color → String
  | .white => "white"
  | .black => "black"

/-- Board coordinates (`type Coord = { row: number, col: number }`); either
component can be `NaN` after arithmetic on a malformed position. -/
structure Coord where
  row : JSNum
  col : JSNum
deriving DecidableEq, Repr

/-- JavaScript `"abcdefgh".indexOf(letter)`: the index of the character, `-1`
when absent; `letter` may be `undefined` (`none`) for an empty string, which
also yields `-1`. -/
def jsIndexOfChar (s : String) (c : Option Char) : Int :=
  match c with
  | none => -1
  | some ch =>
    match s.toList.findIdx? (· == ch) with
    | some i => Int.ofNat i
    | none => -1

/-- JavaScript `parseInt` applied to a single character (the second character
of a position string): a digit parses to its value, anything else (including
`undefined` for a too-short string) is `NaN`. -/
def parseIntChar : Option Char → JSNum
  | some ch => if ch.isDigit then some (Int.ofNat (ch.toNat - 48)) else none
  | none => none

/-- Source `positionToCoordinates` (chess.ts:635): `col` is
`letters.indexOf(position[0])`, `row` is `parseInt(position[1]) - 1`. -/
def positionToCoordinates (position : String) : Coord :=
  let chars := position.toList
  let col := jsIndexOfChar "abcdefgh" chars[0]?
  let number := parseIntChar chars[1]?
  { row := jsSub number (some 1), col := some col }

/-- Source `coordinatesToPosition` (chess.ts:646): the template string
`` `${letters[coord.col]}${coord.row + 1}` ``. An out-of-range or `NaN`
column makes `letters[col]` the JavaScript value `undefined`, which the
template renders as the text `"undefined"`; a `NaN` row renders as `"NaN"`. -/
def coordinatesToPosition (coord : Coord) : String :=
  let letter : String :=
    match coord.col with
    | some k =>
      if 0 ≤ k then
        match "abcdefgh".toList[k.toNat]? with
        | some ch => ch.toString
        | none => "undefined"
      else "undefined"
    | none => "undefined"
  let number : String :=
    match coord.row with
    | some r => toString (r + 1)
    | none => "NaN"
  letter ++ number

/-- Source `coordinatesToIndex` (chess.ts:654): `row * 8 + col`. -/
def coordinatesToIndex (coord : Coord) : JSNum :=
  jsAdd (jsMul coord.row (some 8)) coord.col

/-- The 64 well-formed position strings `"a1"`…`"h8"`, built directly from
the letter and digit alphabets (independently of the conversion functions). -/
def allPositionStrings : List String :=
  ("abcdefgh".toList.map fun l => "12345678".toList.map fun d => String.mk [l, d]).flatten

/-- Numeric values of the frozen `PieceType` object (chess.ts:606): `Pawn 1`,
`Rook 2`, `Knight 3`, `Bishop 4`, `Queen 5`, `King 6`, and the special states
`PawnEnPassant 7`, `KingCastle 8`, `RookCastle 9`. -/
def PieceType.Pawn : Nat := 1

/-- Numeric value of `PieceType.Rook`. -/
def PieceType.Rook : Nat := 2

/-- Numeric value of `PieceType.Knight`. -/
def PieceType.Knight : Nat := 3

/-- Numeric value of `PieceType.Bishop`. -/
def PieceType.Bishop : Nat := 4

/-- Numeric value of `PieceType.Queen`. -/
def PieceType.Queen : Nat := 5

/-- Numeric value of `PieceType.King`. -/
def PieceType.King : Nat := 6

/-- Numeric value of `PieceType.PawnEnPassant`. -/
def PieceType.PawnEnPassant : Nat := 7

/-- Numeric value of `PieceType.KingCastle`. -/
def PieceType.KingCastle : Nat := 8

/-- Numeric value of `PieceType.RookCastle`. -/
def PieceType.RookCastle : Nat := 9

/-- JavaScript `a << k` on a non-negative `BigInt` `a`: a negative shift
amount shifts in the other direction. -/
def jsShiftLeftNat (a : Nat) (k : Int) : Nat :=
  if 0 ≤ k then a <<< k.toNat else a >>> (-k).toNat

/-- JavaScript `a >> k` on a non-negative `BigInt` `a`: a negative shift
amount shifts in the other direction. -/
def jsShiftRightNat (a : Nat) (k : Int) : Nat :=
  if 0 ≤ k then a >>> k.toNat else a <<< (-k).toNat

/-- JavaScript `x & ~mask` for non-negative arbitrary-precision integers:
clearing the masked bits is subtracting the bits of `x` inside the mask. -/
def natClearBits (x mask : Nat) : Nat :=
  x - (x &&& mask)

/-- Source `calculateBitLength` (chess.ts:731): `0n` for `NaN`, otherwise
`position * bitOffset + 64` with `bitOffset = 4`. -/
def calculateBitLength (position : JSNum) : Int :=
  match position with
  | none => 0
  | some p => p * 4 + 64

/-- Source `setPiece` (chess.ts:737): sets the occupancy bit at `position`
and ors the 4-bit piece `type` into the field at `position * 4 + 64`.
In the `NaN` case JavaScript would throw in `BigInt(position)`; that case is
never reached in this development. -/
def setPiece (board : Nat) (position : JSNum) (type : Nat) : Nat :=
  match position with
  | none => board
  | some p =>
    let b1 := board ||| jsShiftLeftNat 1 p
    b1 ||| jsShiftLeftNat type (calculateBitLength (some p))

/-- Source `removePiece` (chess.ts:744): clears the occupancy bit and the
4-bit type field (`maxBinary = 0b1111`). The `NaN` case would throw in
JavaScript and is never reached here. -/
def removePiece (board : Nat) (position : JSNum) : Nat :=
  match position with
  | none => board
  | some p =>
    let b1 := natClearBits board (jsShiftLeftNat 1 p)
    natClearBits b1 (jsShiftLeftNat 15 (calculateBitLength (some p)))

/-- State of class `ChessBoard` (chess.ts:669): the white and black bit
fields, the two en-passant bit fields, and the (never consulted) castle
flags. `bitOffset`/`maxBinary` are constants and are inlined above. -/
structure ChessBoard where
  whitePieces : Nat
  blackPieces : Nat
  pawnsEnPassantWhite : Nat
  pawnsEnPassantBlack : Nat
  whiteCanCastle : Bool
  blackCanCastle : Bool
deriving DecidableEq, Repr

/-- Source `isOccupiedBy` (chess.ts:751): reads the occupancy bit of the
given colour's bit field; a `NaN` index (malformed position) yields `false`. -/
def isOccupiedBy (b : ChessBoard) (position : String) (color : Color) : Bool :=
  let board := match color with
    | Color.white => b.whitePieces
    | Color.black => b.blackPieces
  match coordinatesToIndex (positionToCoordinates position) with
  | none => false
  | some index => (jsShiftRightNat board index) &&& 1 == 1

/-- Source `getPieceSymbol` (chess.ts:769): upper case for white, lower case
for black; an unknown type yields JavaScript `undefined` (and would throw on
`.toLowerCase()` for black), rendered here as `"undefined"`. -/
def getPieceSymbol (type : Nat) (color : Color) : String :=
  let symbol : Option String :=
    if type == PieceType.Pawn then some "P"
    else if type == PieceType.Rook then some "R"
    else if type == PieceType.Knight then some "N"
    else if type == PieceType.Bishop then some "B"
    else if type == PieceType.Queen then some "Q"
    else if type == PieceType.King then some "K"
    else if type == PieceType.PawnEnPassant then some "P"
    else if type == PieceType.KingCastle then some "K"
    else if type == PieceType.RookCastle then some "R"
    else none
  match symbol, color with
  | some s, Color.white => s
  | some s, Color.black => s.toLower
  | none, _ => "undefined"

/-- A piece record as returned by `getPieceAt` (chess.ts:628). -/
structure Piece where
  color : Color
  type : Nat
  position : String
  symbol : String
deriving DecidableEq, Repr

/-- Source `getPieceAt` (chess.ts:786): white occupancy is consulted first,
then black; the 4-bit type is read from the matching bit field. -/
def getPieceAt (b : ChessBoard) (position : String) : Option Piece :=
  let index := coordinatesToIndex (positionToCoordinates position)
  let whiteOccupied := isOccupiedBy b position Color.white
  let blackOccupied := isOccupiedBy b position Color.black
  let bitPos := calculateBitLength index
  if whiteOccupied then
    let type := (jsShiftRightNat b.whitePieces bitPos) &&& 15
    some { type, position, color := Color.white, symbol := getPieceSymbol type Color.white }
  else if blackOccupied then
    let type := (jsShiftRightNat b.blackPieces bitPos) &&& 15
    some { type, position, color := Color.black, symbol := getPieceSymbol type Color.black }
  else
    none

/-- Source `isEmpty` (chess.ts:805). -/
def isEmpty (b : ChessBoard) (position : String) : Bool :=
  (getPieceAt b position).isNone

/-- Source `isEnemy` (chess.ts:810). -/
def isEnemy (b : ChessBoard) (position : String) (color : Color) : Bool :=
  match getPieceAt b position with
  | some piece => piece.color ≠ color
  | none => false

/-- Source pattern `this.getPieceAt(pos)?.type === t` (optional chaining:
`undefined === t` is false). -/
def pieceTypeIs (b : ChessBoard) (position : String) (t : Nat) : Bool :=
  match getPieceAt b position with
  | some piece => piece.type == t
  | none => false

/-- The white side of the initial placement (`initializeWhitePieces`,
chess.ts:712): pawns on squares 8–15, then rooks, knights, bishops, queen,
king on squares 0–7. -/
def initialWhitePieces : Nat :=
  let b := (List.range 8).foldl
    (fun acc i => setPiece acc (some (Int.ofNat (8 + i))) PieceType.Pawn) 0
  let b := setPiece b (some 0) PieceType.Rook
  let b := setPiece b (some 7) PieceType.Rook
  let b := setPiece b (some 1) PieceType.Knight
  let b := setPiece b (some 6) PieceType.Knight
  let b := setPiece b (some 2) PieceType.Bishop
  let b := setPiece b (some 5) PieceType.Bishop
  let b := setPiece b (some 3) PieceType.Queen
  setPiece b (some 4) PieceType.King

/-- The black side of the initial placement (`initializeBlackPieces`,
chess.ts:694): pawns on squares 48–55, major pieces on 56–63. -/
def initialBlackPieces : Nat :=
  let b := (List.range 8).foldl
    (fun acc i => setPiece acc (some (Int.ofNat (48 + i))) PieceType.Pawn) 0
  let b := setPiece b (some 56) PieceType.Rook
  let b := setPiece b (some 63) PieceType.Rook
  let b := setPiece b (some 57) PieceType.Knight
  let b := setPiece b (some 62) PieceType.Knight
  let b := setPiece b (some 58) PieceType.Bishop
  let b := setPiece b (some 61) PieceType.Bishop
  let b := setPiece b (some 59) PieceType.Queen
  setPiece b (some 60) PieceType.King

/-- The board produced by the `ChessBoard` constructor (chess.ts:684). -/
def initialBoard : ChessBoard :=
  { whitePieces := initialWhitePieces
    blackPieces := initialBlackPieces
    pawnsEnPassantWhite := 0
    pawnsEnPassantBlack := 0
    whiteCanCastle := true
    blackCanCastle := true }

/-- Source `getPawnMoves` (chess.ts:817): forward one square when empty,
two from the start row, diagonal captures, and the en-passant pushes guarded
by `getPieceAt(adjacent)?.type === PieceType.PawnEnPassant`; the pushes of
the JavaScript loop become list concatenation in push order. -/
def getPawnMoves (b : ChessBoard) (position : String) (color : Color) : List String :=
  let c := positionToCoordinates position
  let direction : Int := match color with | Color.white => 1 | Color.black => -1
  let startRow : Int := match color with | Color.white => 1 | Color.black => 6
  let forward1 := coordinatesToPosition { row := jsAdd c.row (some direction), col := c.col }
  let forward2 := coordinatesToPosition { row := jsAdd c.row (some (2 * direction)), col := c.col }
  let forwardMoves :=
    if isEmpty b forward1 then
      forward1 ::
        (if jsEqNum c.row (some startRow) && isEmpty b forward2 then [forward2] else [])
    else []
  let captureLeft := coordinatesToPosition
    { row := jsAdd c.row (some direction), col := jsSub c.col (some 1) }
  let captureRight := coordinatesToPosition
    { row := jsAdd c.row (some direction), col := jsAdd c.col (some 1) }
  let captureMoves :=
    (if isEnemy b captureLeft color then [captureLeft] else []) ++
    (if isEnemy b captureRight color then [captureRight] else [])
  let enPassantRow : Int := match color with | Color.white => 4 | Color.black => 3
  let epMoves :=
    if jsEqNum c.row (some enPassantRow) then
      let leftPos := coordinatesToPosition { row := c.row, col := jsSub c.col (some 1) }
      let rightPos := coordinatesToPosition { row := c.row, col := jsAdd c.col (some 1) }
      (if isEnemy b leftPos color && pieceTypeIs b leftPos PieceType.PawnEnPassant then
        [coordinatesToPosition { row := jsAdd c.row (some direction), col := jsSub c.col (some 1) }]
      else []) ++
      (if isEnemy b rightPos color && pieceTypeIs b rightPos PieceType.PawnEnPassant then
        [coordinatesToPosition { row := jsAdd c.row (some direction), col := jsAdd c.col (some 1) }]
      else [])
    else []
  forwardMoves ++ captureMoves ++ epMoves

/-- The index values visited by the loop `for (let i = t + 1; i < 8; i++)`:
the members of `0..7` above `t`, ascending (no iterations when `t` is `NaN`). -/
def ascRange (t : JSNum) : List Int :=
  ((List.range 8).map Int.ofNat).filter fun i => jsLtInt t i

/-- The index values visited by the loop `for (let i = t - 1; i >= 0; i--)`:
the members of `0..7` below `t`, descending (no iterations when `t` is `NaN`). -/
def descRange (t : JSNum) : List Int :=
  (((List.range 8).map Int.ofNat).filter fun i => jsGtInt t i).reverse

/-- Body shared by every sliding loop of the source: push empty squares,
push an enemy square and break, break on an own piece. -/
def slideWalk (b : ChessBoard) (color : Color) : List Coord → List String
  | [] => []
  | c :: rest =>
    let pos := coordinatesToPosition c
    if isEmpty b pos then pos :: slideWalk b color rest
    else if isEnemy b pos color then [pos]
    else []

/-- Source `getRookMoves` (chess.ts:859): the four straight-line loops in
source order (col asc, col desc, row asc, row desc). -/
def getRookMoves (b : ChessBoard) (position : String) (color : Color) : List String :=
  let c := positionToCoordinates position
  let right := slideWalk b color ((ascRange c.col).map fun i => { row := c.row, col := some i })
  let left := slideWalk b color ((descRange c.col).map fun i => { row := c.row, col := some i })
  let up := slideWalk b color ((ascRange c.row).map fun i => { row := some i, col := c.col })
  let down := slideWalk b color ((descRange c.row).map fun i => { row := some i, col := c.col })
  right ++ left ++ up ++ down

/-- Source `getKnightMoves` (chess.ts:906): the eight L-offsets in source
order, bounds-checked, then kept when empty or enemy. -/
def getKnightMoves (b : ChessBoard) (position : String) (color : Color) : List String :=
  let c := positionToCoordinates position
  let knightMoves : List Coord :=
    [ { row := jsAdd c.row (some 2), col := jsAdd c.col (some 1) }
    , { row := jsAdd c.row (some 2), col := jsSub c.col (some 1) }
    , { row := jsSub c.row (some 2), col := jsAdd c.col (some 1) }
    , { row := jsSub c.row (some 2), col := jsSub c.col (some 1) }
    , { row := jsAdd c.row (some 1), col := jsAdd c.col (some 2) }
    , { row := jsAdd c.row (some 1), col := jsSub c.col (some 2) }
    , { row := jsSub c.row (some 1), col := jsAdd c.col (some 2) }
    , { row := jsSub c.row (some 1), col := jsSub c.col (some 2) } ]
  let inBounds := knightMoves.filter fun m =>
    jsGeInt m.row 0 && jsLtInt m.row 8 && jsGeInt m.col 0 && jsLtInt m.col 8
  (inBounds.map coordinatesToPosition).filter fun pos =>
    isEmpty b pos || isEnemy b pos color

/-- Source `getBishopMoves` (chess.ts:934): the four diagonal loops
`for (let i = 1; <bounds on row ± i, col ± i>; i++)`; because the bound
predicates are antitone in `i`, the while-style loop equals filtering the
step values `1..8`. -/
def getBishopMoves (b : ChessBoard) (position : String) (color : Color) : List String :=
  let c := positionToCoordinates position
  let steps := (List.range 8).map fun k => (Int.ofNat k) + 1
  let upRight := slideWalk b color
    (((steps.filter fun i => jsLtInt (jsAdd c.row (some i)) 8 && jsLtInt (jsAdd c.col (some i)) 8)).map
      fun i => { row := jsAdd c.row (some i), col := jsAdd c.col (some i) })
  let upLeft := slideWalk b color
    (((steps.filter fun i => jsLtInt (jsAdd c.row (some i)) 8 && jsGeInt (jsSub c.col (some i)) 0)).map
      fun i => { row := jsAdd c.row (some i), col := jsSub c.col (some i) })
  let downRight := slideWalk b color
    (((steps.filter fun i => jsGeInt (jsSub c.row (some i)) 0 && jsLtInt (jsAdd c.col (some i)) 8)).map
      fun i => { row := jsSub c.row (some i), col := jsAdd c.col (some i) })
  let downLeft := slideWalk b color
    (((steps.filter fun i => jsGeInt (jsSub c.row (some i)) 0 && jsGeInt (jsSub c.col (some i)) 0)).map
      fun i => { row := jsSub c.row (some i), col := jsSub c.col (some i) })
  upRight ++ upLeft ++ downRight ++ downLeft

/-- Source `getQueenMoves` (chess.ts:981): rook moves then bishop moves. -/
def getQueenMoves (b : ChessBoard) (position : String) (color : Color) : List String :=
  getRookMoves b position color ++ getBishopMoves b position color

/-- The check filter of the king loop: keep a candidate square when
`check pos color` (the recursive `isKingInCheck`) is `false`; a `none`
(out-of-fuel) answer aborts the whole computation. -/
def kingFilterCheck (check : String → Color → Option Bool) (color : Color) :
    List String → Option (List String)
  | [] => some []
  | pos :: rest =>
    match check pos color with
    | none => none
    | some true => kingFilterCheck check color rest
    | some false =>
      match kingFilterCheck check color rest with
      | none => none
      | some ms => some (pos :: ms)

/-- Source `getKingMoves` (chess.ts:988) with the recursive call
`this.isKingInCheck(pos, color)` abstracted as `check`: the eight adjacent
offsets in source order, bounds-checked, kept when
`(isEmpty || isEnemy) && !isKingInCheck`; by `&&` short-circuiting this is
bounds filter, then empty-or-enemy filter, then the check filter. -/
def getKingMovesGen (check : String → Color → Option Bool) (b : ChessBoard)
    (position : String) (color : Color) : Option (List String) :=
  let c := positionToCoordinates position
  let kingMoves : List Coord :=
    [ { row := jsAdd c.row (some 1), col := c.col }
    , { row := jsSub c.row (some 1), col := c.col }
    , { row := c.row, col := jsAdd c.col (some 1) }
    , { row := c.row, col := jsSub c.col (some 1) }
    , { row := jsAdd c.row (some 1), col := jsAdd c.col (some 1) }
    , { row := jsAdd c.row (some 1), col := jsSub c.col (some 1) }
    , { row := jsSub c.row (some 1), col := jsAdd c.col (some 1) }
    , { row := jsSub c.row (some 1), col := jsSub c.col (some 1) } ]
  let inBounds := kingMoves.filter fun m =>
    jsGeInt m.row 0 && jsLtInt m.row 8 && jsGeInt m.col 0 && jsLtInt m.col 8
  let reachable := (inBounds.map coordinatesToPosition).filter fun pos =>
    isEmpty b pos || isEnemy b pos color
  kingFilterCheck check color reachable

/-- Source `getLegalMoves` (chess.ts:1065) with the recursive checker
abstracted as `check`: empty square gives `[]`, otherwise dispatch on
`piece.type` (the locally computed `pieceType`/`color` are dead code in the
source and kept here as unused bindings). -/
def getLegalMovesGen (check : String → Color → Option Bool) (b : ChessBoard)
    (position : String) : Option (List String) :=
  let coord := positionToCoordinates position
  let pos := jsAdd (jsMul coord.row (some 8)) coord.col
  let whiteOccupied := isOccupiedBy b position Color.white
  let blackOccupied := isOccupiedBy b position Color.black
  if !whiteOccupied && !blackOccupied then some []
  else
    let bitOffset := calculateBitLength pos
    let _pieceType : Nat :=
      if whiteOccupied then (jsShiftRightNat b.whitePieces bitOffset) &&& 15
      else (jsShiftRightNat b.blackPieces bitOffset) &&& 15
    let _color : Color := if whiteOccupied then Color.white else Color.black
    match getPieceAt b position with
    | none => some []
    | some piece =>
      if piece.type == PieceType.Pawn || piece.type == PieceType.PawnEnPassant then
        some (getPawnMoves b position piece.color)
      else if piece.type == PieceType.Rook || piece.type == PieceType.RookCastle then
        some (getRookMoves b position piece.color)
      else if piece.type == PieceType.Knight then
        some (getKnightMoves b position piece.color)
      else if piece.type == PieceType.Bishop then
        some (getBishopMoves b position piece.color)
      else if piece.type == PieceType.Queen then
        some (getQueenMoves b position piece.color)
      else if piece.type == PieceType.King || piece.type == PieceType.KingCastle then
        getKingMovesGen check b position piece.color
      else some []

/-- The 64 squares in the iteration order of the source's double loops
(`row` outer 0..7, `col` inner 0..7). -/
def allSquares : List String :=
  ((List.range 8).map fun row =>
    (List.range 8).map fun col =>
      coordinatesToPosition { row := some (Int.ofNat row), col := some (Int.ofNat col) }).flatten

/-- The scan of `isKingInCheck` over the opponent-occupied squares: return
`true` at the first square whose legal moves contain the king's position,
`false` after the last square; a `none` (out-of-fuel) answer aborts. -/
def attackScan (legal : String → Option (List String)) (kingPosition : String) :
    List String → Option Bool
  | [] => some false
  | pos :: rest =>
    match legal pos with
    | none => none
    | some legalMoves =>
      if legalMoves.contains kingPosition then some true
      else attackScan legal kingPosition rest

/-- Source `isKingInCheck` (chess.ts:1209) with the recursive
`this.getLegalMoves` abstracted as `legal`: scan every square occupied by
the opponent colour in row-major order. -/
def isKingInCheckGen (legal : String → Option (List String)) (b : ChessBoard)
    (kingPosition : String) (color : Color) : Option Bool :=
  let opponentColor := Color.opposite color
  attackScan legal kingPosition
    (allSquares.filter fun pos => isOccupiedBy b pos opponentColor)

/-- Fuel-indexed `isKingInCheck`: ties the `isKingInCheck` ↔ `getLegalMoves`
↔ `getKingMoves` recursion of the source, spending one unit of fuel per
nested `isKingInCheck` call. `none` means the recursion budget is exhausted. -/
def isKingInCheckF : Nat → ChessBoard → String → Color → Option Bool
  | 0, _, _, _ => none
  | fuel + 1, b, kingPosition, color =>
    isKingInCheckGen (getLegalMovesGen (isKingInCheckF fuel b) b) b kingPosition color

/-- Source `getLegalMoves` at a given recursion budget. -/
def getLegalMovesF (fuel : Nat) (b : ChessBoard) (position : String) :
    Option (List String) :=
  getLegalMovesGen (isKingInCheckF fuel b) b position

/-- Source `isColorInCheck` (chess.ts:1226): locate the first square holding
a piece of type `King` of the given colour (row-major, matching the
break-on-found double loop) and ask `isKingInCheck` there; `false` when no
king is found. -/
def isColorInCheckF (fuel : Nat) (b : ChessBoard) (color : Color) : Option Bool :=
  let kingPosition := allSquares.find? fun pos =>
    match getPieceAt b pos with
    | some piece => piece.type == PieceType.King && piece.color == color
    | none => false
  match kingPosition with
  | none => some false
  | some kp => isKingInCheckF fuel b kp color

/-- Source `isCheckmate` (chess.ts:1245): not in check gives `false`,
otherwise true exactly when the king square itself has no legal moves
(other pieces are not consulted). This method is never called by the rest
of the source. -/
def isCheckmateF (fuel : Nat) (b : ChessBoard) (kingPosition : String)
    (color : Color) : Option Bool :=
  match isKingInCheckF fuel b kingPosition color with
  | none => none
  | some false => some false
  | some true =>
    match getLegalMovesF fuel b kingPosition with
    | none => none
    | some legalMoves => some (legalMoves.length == 0)

/-- Source `capturePiece` (chess.ts:1174): remove the piece at `position`
from whichever bit field holds it; returns the updated board and the
source's boolean result. -/
def capturePiece (b : ChessBoard) (position : String) : ChessBoard × Bool :=
  let index := coordinatesToIndex (positionToCoordinates position)
  if isOccupiedBy b position Color.white then
    ({ b with whitePieces := removePiece b.whitePieces index }, true)
  else if isOccupiedBy b position Color.black then
    ({ b with blackPieces := removePiece b.blackPieces index }, true)
  else
    (b, false)

/-- Source `movePiece` (chess.ts:1016): the en-passant capture branch, the
relocation of the piece in its own bit field, and the maintenance of the
`pawnsEnPassant*` fields; returns the updated board and the source's
boolean result. Note that a piece standing on the destination square in the
*other* bit field is left untouched. -/
def movePiece (b : ChessBoard) (from_ to_ : String) : ChessBoard × Bool :=
  let fromCoords := positionToCoordinates from_
  let toCoords := positionToCoordinates to_
  let fromIndex := jsAdd (jsMul fromCoords.row (some 8)) fromCoords.col
  let toIndex := jsAdd (jsMul toCoords.row (some 8)) toCoords.col
  let whiteOccupied := isOccupiedBy b from_ Color.white
  let blackOccupied := isOccupiedBy b from_ Color.black
  match getPieceAt b from_ with
  | none => (b, false)
  | some piece =>
    let b :=
      if piece.type == PieceType.Pawn
          && jsEqNum (jsAbs (jsSub fromCoords.row toCoords.row)) (some 1)
          && jsEqNum (jsAbs (jsSub fromCoords.col toCoords.col)) (some 1)
          && isEmpty b to_ then
        let enPassantPos := coordinatesToPosition { row := fromCoords.row, col := toCoords.col }
        if isOccupiedBy b enPassantPos piece.color.opposite then
          (capturePiece b enPassantPos).1
        else b
      else b
    let b :=
      if whiteOccupied then
        { b with whitePieces := setPiece (removePiece b.whitePieces fromIndex) toIndex piece.type }
      else if blackOccupied then
        { b with blackPieces := setPiece (removePiece b.blackPieces fromIndex) toIndex piece.type }
      else b
    let b :=
      if piece.type == PieceType.Pawn then
        if piece.color == Color.white then
          let b := { b with pawnsEnPassantWhite := 0 }
          if jsEqNum fromCoords.row (some 1) && jsEqNum toCoords.row (some 3) then
            { b with pawnsEnPassantWhite :=
                setPiece b.pawnsEnPassantWhite toIndex PieceType.PawnEnPassant }
          else b
        else
          let b := { b with pawnsEnPassantBlack := 0 }
          if jsEqNum fromCoords.row (some 6) && jsEqNum toCoords.row (some 4) then
            { b with pawnsEnPassantBlack :=
                setPiece b.pawnsEnPassantBlack toIndex PieceType.PawnEnPassant }
          else b
      else b
    (b, true)

/-- Castle side selector (`side: 'king' | 'queen'`). -/
inductive CastleSide
  | king
  | queen
deriving DecidableEq, Repr

/-- Source `canCastle` (chess.ts:1108): pieces of type `King`/`Rook` must
stand on the home squares, the squares strictly between them must be empty,
and `isKingInCheck` must be false on the king's current square and on its
destination square (column 6 or 2). -/
def canCastleF (fuel : Nat) (b : ChessBoard) (color : Color) (side : CastleSide) :
    Option Bool :=
  let row : Int := match color with | Color.white => 0 | Color.black => 7
  let kingPos := coordinatesToPosition { row := some row, col := some 4 }
  let rookPos := match side with
    | CastleSide.king => coordinatesToPosition { row := some row, col := some 7 }
    | CastleSide.queen => coordinatesToPosition { row := some row, col := some 0 }
  match getPieceAt b kingPos with
  | none => some false
  | some kingPiece =>
    match getPieceAt b rookPos with
    | none => some false
    | some rookPiece =>
      if kingPiece.type ≠ PieceType.King || rookPiece.type ≠ PieceType.Rook then some false
      else
        let between : List Int := match side with
          | CastleSide.king => [5, 6]
          | CastleSide.queen => [1, 2, 3]
        if (between.map fun i => coordinatesToPosition { row := some row, col := some i }).any
            (fun pos => !(isEmpty b pos)) then some false
        else
          match isKingInCheckF fuel b kingPos color with
          | none => none
          | some true => some false
          | some false =>
            let newKingPos := match side with
              | CastleSide.king => coordinatesToPosition { row := some row, col := some 6 }
              | CastleSide.queen => coordinatesToPosition { row := some row, col := some 2 }
            match isKingInCheckF fuel b newKingPos color with
            | none => none
            | some true => some false
            | some false => some true

/-- Game status (`type GameState`, chess.ts:619). -/
inductive GameState
  | prepared
  | active
  | checkmate
  | stalemate
  | draw
deriving DecidableEq, Repr

/-- A seated player (class `ChessPlayer`, chess.ts:1271), reduced to the
fields that the move logic reads: the user id and the assigned side. -/
structure ChessPlayer where
  id : String
  side : Color
deriving DecidableEq, Repr

/-- Source `ChessPlayer.oppositeSide` (chess.ts:1295). -/
def ChessPlayer.oppositeSide (p : ChessPlayer) : Color :=
  p.side.opposite

/-- State of class `ChessGame` (chess.ts:1304) after both players joined
(`addPlayer` seats the first joiner as white and the second as black):
`turn`, the two entries of `sides`, `history`, `board` and `state`.
Transport-only fields (room, playerTable, check record) are omitted. -/
structure ChessGame where
  turn : String
  whitePlayer : ChessPlayer
  blackPlayer : ChessPlayer
  history : List String
  board : ChessBoard
  state : GameState
deriving DecidableEq, Repr

/-- The `sides` map of a fully seated game. -/
def ChessGame.sides (g : ChessGame) : Color → ChessPlayer
  | Color.white => g.whitePlayer
  | Color.black => g.blackPlayer

/-- The white-seated player used in the concrete games below. -/
def playerWhite : ChessPlayer :=
  { id := "wp", side := Color.white }

/-- The black-seated player used in the concrete games below. -/
def playerBlack : ChessPlayer :=
  { id := "bp", side := Color.black }

/-- A freshly constructed, fully seated game (constructor chess.ts:1316 plus
two `addPlayer` calls): empty turn, empty history, initial board, state
`prepared`. -/
def initialGame : ChessGame :=
  { turn := ""
    whitePlayer := playerWhite
    blackPlayer := playerBlack
    history := []
    board := initialBoard
    state := GameState.prepared }

/-- Source `ChessGame.start` (chess.ts:1474): state becomes `active` and
`turn` becomes the white player's id (the announcements are presentation
only). -/
def gameStart (g : ChessGame) : ChessGame :=
  { g with state := GameState.active, turn := (g.sides Color.white).id }

/-- Source `ChessGame.move` (chess.ts:1442). The thrown `Chat.ErrorMessage`s
become `some errorText` in the second component, with the game returned
unchanged at the point of the throw; `none` overall means the legal-move
computation ran out of fuel. On success the board is updated and, when
`movePiece` reported `true`, the move is appended to the history and `turn`
is set to the opposite player's side string. -/
def gameMove (fuel : Nat) (g : ChessGame) (player : ChessPlayer) (from_ to_ : String) :
    Option (ChessGame × Option String) :=
  let fromCoord := positionToCoordinates from_
  let toCoord := positionToCoordinates to_
  let fromPos := coordinatesToPosition fromCoord
  let toPos := coordinatesToPosition toCoord
  match getLegalMovesF fuel g.board fromPos with
  | none => none
  | some legalMoves =>
    if !(legalMoves.contains toPos) then
      some (g, some ("Invalid move from " ++ from_ ++ " to " ++ to_ ++ "."))
    else
      match getPieceAt g.board fromPos with
      | none => some (g, some ("There is no piece at " ++ from_ ++ "."))
      | some fromPiece =>
        let toPiece := getPieceAt g.board toPos
        if fromPiece.color ≠ player.side then
          some (g, some "It's not your turn to move.")
        else if (match toPiece with
            | some tp => tp.color == player.side
            | none => false) then
          some (g, some "You can't capture your own piece.")
        else
          let res := movePiece g.board fromPos toPos
          if res.2 then
            some ({ g with
                board := res.1
                history := g.history ++ [from_ ++ " " ++ to_]
                turn := (g.sides player.oppositeSide).side.str }, none)
          else
            some ({ g with board := res.1 }, none)

/-- Test harness: run `gameMove` (with a generous fuel) and keep the game
only when the move was accepted without error. -/
def stepAccepted (player : ChessPlayer) (from_ to_ : String) :
    Option ChessGame → Option ChessGame
  | some g =>
    match gameMove 32 g player from_ to_ with
    | some (g', none) => some g'
    | _ => none
  | none => none

/-- C9: for every valid square position string s ("a1".."h8"), converting it
to coordinates and back yields s:
`coordinatesToPosition (positionToCoordinates s) = s`. -/
theorem positionRoundTrip :
    (allPositionStrings.all fun s =>
      coordinatesToPosition (positionToCoordinates s) == s) = true := by decide


/-- A board holding only the two kings: white king on a1 (square 0), black
king on h8 (square 63). Both kings have free adjacent squares, so any
`isKingInCheck` query enters the mutual recursion between the two kings'
move generation. -/
def twoKings : ChessBoard :=
  { whitePieces := setPiece 0 (some 0) PieceType.King
    blackPieces := setPiece 0 (some 63) PieceType.King
    pawnsEnPassantWhite := 0
    pawnsEnPassantBlack := 0
    whiteCanCastle := true
    blackCanCastle := true }

/-- A board with a pinned white rook: white king e1 (4) and rook e4 (28);
black pawns a7 (48) and b7 (49), king a8 (56), knight b8 (57) and rook
e8 (60). The black king is boxed in by its own pieces, so every
`isKingInCheck` computation on this board terminates. -/
def pinBoard : ChessBoard :=
  { whitePieces := setPiece (setPiece 0 (some 4) PieceType.King) (some 28) PieceType.Rook
    blackPieces :=
      setPiece (setPiece (setPiece (setPiece (setPiece 0 (some 48) PieceType.Pawn)
        (some 49) PieceType.Pawn) (some 56) PieceType.King) (some 57) PieceType.Knight)
        (some 60) PieceType.Rook
    pawnsEnPassantWhite := 0
    pawnsEnPassantBlack := 0
    whiteCanCastle := true
    blackCanCastle := true }

/-- A castling position: white king e1 (4) and rook h1 (7) with f1/g1 empty;
black pawns a7/b7, boxed-in king a8, knight b8, and a rook on f8 (61) that
attacks the transit square f1 but neither e1 nor g1. -/
def castleBoard : ChessBoard :=
  { whitePieces := setPiece (setPiece 0 (some 4) PieceType.King) (some 7) PieceType.Rook
    blackPieces :=
      setPiece (setPiece (setPiece (setPiece (setPiece 0 (some 48) PieceType.Pawn)
        (some 49) PieceType.Pawn) (some 56) PieceType.King) (some 57) PieceType.Knight)
        (some 61) PieceType.Rook
    pawnsEnPassantWhite := 0
    pawnsEnPassantBlack := 0
    whiteCanCastle := true
    blackCanCastle := true }

/-- On `twoKings`, the only square occupied by black is h8, so a white-side
check scan reduces to asking for the legal moves of the black king; if that
question has no answer within the budget, neither does the scan. -/
theorem twoKingsWhiteScan (legal : String → Option (List String)) (p : String)
    (h : legal "h8" = none) :
    isKingInCheckGen legal twoKings p Color.white = none := by
  simp only [isKingInCheckGen]
  rw [show allSquares.filter
      (fun pos => isOccupiedBy twoKings pos (Color.opposite Color.white)) = ["h8"] from by decide]
  simp only [attackScan, h]

/-- On `twoKings`, the only square occupied by white is a1, so a black-side
check scan reduces to asking for the legal moves of the white king. -/
theorem twoKingsBlackScan (legal : String → Option (List String)) (p : String)
    (h : legal "a1" = none) :
    isKingInCheckGen legal twoKings p Color.black = none := by
  simp only [isKingInCheckGen]
  rw [show allSquares.filter
      (fun pos => isOccupiedBy twoKings pos (Color.opposite Color.black)) = ["a1"] from by decide]
  simp only [attackScan, h]

/-- C2: refuted. `isKingInCheck` does recurse into the attacking king's
check-filtered move generation (`getLegalMoves` dispatches a king to
`getKingMoves`, whose filter calls `isKingInCheck` again), and on the board
holding only the two kings every `isKingInCheck` query of either colour
fails to finish within any recursion budget: the call diverges (a stack
overflow at run time), contradicting the claimed termination for every
board configuration. -/
theorem isKingInCheckNonterminating :
    ∀ (n : Nat) (p : String),
      isKingInCheckF n twoKings p Color.white = none ∧
      isKingInCheckF n twoKings p Color.black = none := by
  intro n
  induction n with
  | zero => intro p; exact ⟨rfl, rfl⟩
  | succ m ih =>
    intro p
    have hH8 : getLegalMovesGen (isKingInCheckF m twoKings) twoKings "h8" =
        kingFilterCheck (isKingInCheckF m twoKings) Color.black ["h7", "g8", "g7"] := rfl
    have hA1 : getLegalMovesGen (isKingInCheckF m twoKings) twoKings "a1" =
        kingFilterCheck (isKingInCheckF m twoKings) Color.white ["a2", "b1", "b2"] := rfl
    have hH8n : getLegalMovesGen (isKingInCheckF m twoKings) twoKings "h8" = none := by
      rw [hH8]
      simp only [kingFilterCheck, (ih "h7").2]
    have hA1n : getLegalMovesGen (isKingInCheckF m twoKings) twoKings "a1" = none := by
      rw [hA1]
      simp only [kingFilterCheck, (ih "a2").1]
    constructor
    · simp only [isKingInCheckF]
      exact twoKingsWhiteScan _ p hH8n
    · simp only [isKingInCheckF]
      exact twoKingsBlackScan _ p hA1n

/-- C1: refuted. On `pinBoard` the white rook on e4 is pinned by the black
rook on e8, yet `getLegalMoves` offers the sideways move e4→d4 (its list
for a rook is the raw rook moves, with no self-check filter): white is not
in check before the move and is in check after it, so the legal-move set of
a non-king piece does contain a move that leaves its own king in check. -/
theorem pinnedPieceMayMove :
    pieceTypeIs pinBoard "e4" PieceType.Rook = true
    ∧ ((getLegalMovesF 9 pinBoard "e4").map fun ms => ms.contains "d4") = some true
    ∧ isColorInCheckF 9 pinBoard Color.white = some false
    ∧ isColorInCheckF 9 (movePiece pinBoard "e4" "d4").1 Color.white = some true := by
  decide

/-- The game after 1. e2e4 d7d5 2. e4xd5, played through `ChessGame.move`
from the freshly started game. -/
def captureGame : Option ChessGame :=
  stepAccepted playerWhite "e4" "d5"
    (stepAccepted playerBlack "d7" "d5"
      (stepAccepted playerWhite "e2" "e4"
        (some (gameStart initialGame))))

/-- C3: refuted. `movePiece` never removes a captured piece from the
opponent's bit field (and `ChessGame.move` never calls `capturePiece` for a
normal capture), so after the accepted capture 2. e4xd5 the square d5
(index 35) is occupied in both the white and the black bit fields. -/
theorem captureLeavesTwoPiecesOnSquare :
    (captureGame.map fun g =>
      (isOccupiedBy g.board "d5" Color.white, isOccupiedBy g.board "d5" Color.black))
      = some (true, true) := by
  decide

/-- The fool's-mate sequence 1. f2f3 e7e5 2. g2g4 d8h4, played through
`ChessGame.move` from the freshly started game. -/
def foolsMateGame : Option ChessGame :=
  stepAccepted playerBlack "d8" "h4"
    (stepAccepted playerWhite "g2" "g4"
      (stepAccepted playerBlack "e7" "e5"
        (stepAccepted playerWhite "f2" "f3"
          (some (gameStart initialGame)))))

/-- C4: refuted. After the accepted fool's-mate sequence the white king is
in check from the queen on h4, but the game status is still `active`
(`ChessGame.move` never recomputes the status and `isCheckmate` is never
called), and white is far from having zero legal moves: the a2 pawn alone
still gets `["a3", "a4"]`. -/
theorem foolsMateNotDetected :
    (foolsMateGame.map fun g => g.state) = some GameState.active
    ∧ (foolsMateGame.bind fun g => isColorInCheckF 20 g.board Color.white) = some true
    ∧ (foolsMateGame.bind fun g => getLegalMovesF 20 g.board "a2") = some ["a3", "a4"] := by
  decide

/-- The en-passant scenario of the spec: 1. e2e4 a7a6 2. e4e5 d7d5, played
through `ChessGame.move` from the freshly started game; black's d7→d5 is the
double advance right next to the white pawn on e5. -/
def enPassantGame : Option ChessGame :=
  stepAccepted playerBlack "d7" "d5"
    (stepAccepted playerWhite "e4" "e5"
      (stepAccepted playerBlack "a7" "a6"
        (stepAccepted playerWhite "e2" "e4"
          (some (gameStart initialGame)))))

/-- C5: refuted. The double advance does record the en-passant pawn in the
separate `pawnsEnPassantBlack` bit field (bit 35 for d5), but `getPawnMoves`
tests `getPieceAt(d5)?.type === PieceType.PawnEnPassant` against the main
bit field, where the pawn's type is still `Pawn`; hence the white pawn's
legal moves from e5 are just `["e6"]` — the capture e5→d6 is never offered
and is rejected by `ChessGame.move` on the very next move. -/
theorem enPassantCaptureNeverOffered :
    (enPassantGame.map fun g => (g.board.pawnsEnPassantBlack >>> 35) &&& 1) = some 1
    ∧ (enPassantGame.bind fun g => getLegalMovesF 20 g.board "e5") = some ["e6"]
    ∧ (enPassantGame.bind fun g => (gameMove 20 g playerWhite "e5" "d6").map fun r => r.2)
        = some (some "Invalid move from e5 to d6.") := by
  decide

/-- C6: refuted. On `castleBoard` the black rook on f8 attacks f1 — the
square the white king passes through when castling kingside — as the code's
own attack test `isKingInCheck("f1", white)` confirms, yet
`canCastle(white, king)` still answers true: only the king's current and
destination squares are tested, never the transit square (and "has moved"
is only approximated by a piece-type test that `movePiece` never updates). -/
theorem canCastleIgnoresTransitSquare :
    canCastleF 9 castleBoard Color.white CastleSide.king = some true
    ∧ isKingInCheckF 9 castleBoard "f1" Color.white = some true := by
  decide

/-- The game after white's accepted 1. e2e4, at which point the turn belongs
to black. -/
def outOfTurnGame : Option ChessGame :=
  stepAccepted playerWhite "e2" "e4" (some (gameStart initialGame))

/-- C7: refuted. After 1. e2e4 the game's `turn` is "black", yet a second
consecutive submission by the white player, d2→d4, is accepted without any
error (`ChessGame.move` compares the moved piece's colour with the
submitting player's side and never consults `turn`): the pawn lands on d4
instead of the move failing with the not-your-turn error. -/
theorem outOfTurnMoveAccepted :
    (outOfTurnGame.map fun g => g.turn) = some "black"
    ∧ (outOfTurnGame.bind fun g =>
        (gameMove 20 g playerWhite "d2" "d4").map fun r =>
          (r.2, isOccupiedBy r.1.board "d4" Color.white)) = some (none, true) := by
  decide

set_option maxHeartbeats 2000000 in
/-- C8: confirmed. Whenever `ChessGame.move` reports an error (illegal
destination, empty source square, wrong side's piece, or capturing an own
piece), the returned game — board, turn, history and status — is exactly
the input game: every validation throw happens before any mutation. -/
theorem rejectedMoveLeavesGameUnchanged (fuel : Nat) (g : ChessGame)
    (player : ChessPlayer) (f t : String) (g' : ChessGame) (err : String)
    (h : gameMove fuel g player f t = some (g', some err)) : g' = g := by
  simp only [gameMove] at h
  split at h
  · exact Option.noConfusion h
  · split at h
    · simp_all
    · split at h
      · simp_all
      · split at h
        · simp_all
        · split at h
          · simp_all
          · split at h <;> simp_all

/-- Witness for C8: submitting e2→e2 on the freshly started game is rejected
with the invalid-move error, and the theorem instantiated there shows the
returned game is the started initial game, field for field. -/
theorem rejectedMoveWitness :
    ({ turn := "wp", whitePlayer := playerWhite, blackPlayer := playerBlack,
       history := [], board := initialBoard, state := GameState.active } : ChessGame)
      = gameStart initialGame :=
  rejectedMoveLeavesGameUnchanged 9 (gameStart initialGame) playerWhite "e2" "e2"
    _ "Invalid move from e2 to e2." (by decide)

/-- C10: confirmed. For every board and any pair of position strings, if the
source square is empty (`getPieceAt` yields nothing) then `movePiece`
returns `false` and leaves the board — both piece bit fields included —
unchanged. -/
theorem movePieceEmptySourceNoop (b : ChessBoard) (f t : String)
    (h : getPieceAt b f = none) : movePiece b f t = (b, false) := by
  simp only [movePiece, h]

/-- Witness for C10: e4 is empty on the initial board, and the theorem
instantiated there evaluates `movePiece` to the unchanged board and
`false`. -/
theorem movePieceEmptySourceWitness :
    movePiece initialBoard "e4" "a1" = (initialBoard, false) :=
  movePieceEmptySourceNoop initialBoard "e4" "a1" (by decide)
